import Mathlib

/-!
Shallow embedding of the core of the ao compute and messenger units.
The JavaScript sources are translated into executable Lean definitions
over a small model of JavaScript values; external collaborators (zlib,
the gateway, the sequencer, warp-arbundles, JSON.parse) are passed in
as function arguments, exactly where the source receives them as
injected dependencies or global services.
-/

/-- A JavaScript value as it appears in the embedded fragments:
undefined, a number, or a string. -/
inductive JSVal where
  | undefined : JSVal
  | num : Int → JSVal
  | str : String → JSVal
deriving DecidableEq

/-- Numeric value of a decimal digit string. -/
def decDigitsVal (l : List Char) : Nat :=
  l.foldl (fun a c => a * 10 + (c.toNat - 48)) 0

/-- JavaScript ToNumber on the values we model; none stands for NaN.
For strings: the empty string converts to 0, a digit string to its
value, anything else occurring here is NaN. -/
def jsToNum : JSVal → Option Int
  | .undefined => none
  | .num n => some n
  | .str s =>
    if s.data.isEmpty then some 0
    else if s.data.all Char.isDigit then some (decDigitsVal s.data) else none

/-- JavaScript strict equality (triple equals) on the modeled values. -/
def jsStrictEq : JSVal → JSVal → Bool
  | .undefined, .undefined => true
  | .num a, .num b => a == b
  | .str a, .str b => a == b
  | _, _ => false

/-- JavaScript relational comparison, first greater than second: two
strings compare lexicographically on their character lists (code unit
order), otherwise both sides go through ToNumber and any NaN makes the
comparison false. -/
def jsGt : JSVal → JSVal → Bool
  | .str a, .str b => decide (b.data < a.data)
  | a, b =>
    match jsToNum a, jsToNum b with
    | some x, some y => decide (y < x)
    | _, _ => false

/-- JavaScript truthiness of the modeled values. -/
def jsTruthy : JSVal → Bool
  | .undefined => false
  | .num n => !(n == 0)
  | .str s => !(s == "")

/-- JavaScript short-circuit or with the empty string as fallback. -/
def jsOrEmptyStr (v : JSVal) : JSVal :=
  if jsTruthy v then v else .str ""

/-- A JavaScript string-or-undefined, from an optional string. -/
def jsOfOptStr : Option String → JSVal
  | none => .undefined
  | some s => .str s

/-- Truthiness of an optional string (undefined and "" are falsy). -/
def jsTruthyOptStr : Option String → Bool
  | none => false
  | some s => !(s == "")

/-- The pair of fields isLaterThan in ao-process.js reads from each of
its two arguments: a timestamp and a cron interval tag. -/
structure JSEvalRec where
  timestamp : JSVal
  cron : JSVal
deriving DecidableEq

/-- ao-process.js isLaterThan: true when the second argument is later
than the first, comparing timestamps and, on strictly equal timestamps,
the cron tags with empty-string defaults. -/
def isLaterThan (e1 e2 : JSEvalRec) : Bool :=
  if jsStrictEq e2.timestamp e1.timestamp then
    jsGt (jsOrEmptyStr e2.cron) (jsOrEmptyStr e1.cron)
  else jsGt e2.timestamp e1.timestamp

/-- ao-process.js isEarlierThan, the ramda complement of isLaterThan. -/
def isEarlierThan (e1 e2 : JSEvalRec) : Bool := !(isLaterThan e1 e2)

/-- The evaluation record written into the process memory cache by
saveLatestProcessMemoryWith. -/
structure CachedEvaluation where
  processId : String
  moduleId : String
  timestamp : JSVal
  epoch : JSVal
  nonce : JSVal
  blockHeight : JSVal
  ordinate : JSVal
  encoding : String
  cron : JSVal
deriving DecidableEq

/-- One process memory cache entry: the gzipped memory plus the
evaluation record it came from. -/
structure CacheEntry where
  Memory : List Nat
  evaluation : CachedEvaluation
deriving DecidableEq

/-- The process memory cache, keyed by processId. The LRU size and TTL
policies of lru-cache are orthogonal to the claims and are not modeled:
only the key-value association is. -/
abbrev Cache := List (String × CacheEntry)

def cacheGet (c : Cache) (k : String) : Option CacheEntry :=
  (c.find? (fun p => p.1 == k)).map (fun p => p.2)

def cacheSet (c : Cache) (k : String) (v : CacheEntry) : Cache :=
  (k, v) :: c.filter (fun p => !(p.1 == k))

/-- In saveLatestProcessMemoryWith the no-op guard passes the whole
cache entry, not its evaluation field, to isLaterThan; the property
reads of timestamp and of cron on that entry therefore both yield
undefined, since the entry only has the fields Memory and evaluation. -/
def cacheEntryGuardFields (_e : CacheEntry) : JSEvalRec :=
  { timestamp := JSVal.undefined, cron := JSVal.undefined }

/-- The arguments of saveLatestProcessMemory. -/
structure SaveArgs where
  processId : String
  moduleId : String
  messageId : String
  timestamp : JSVal
  epoch : JSVal
  nonce : JSVal
  ordinate : JSVal
  cron : JSVal
  blockHeight : JSVal
  Memory : List Nat
deriving DecidableEq

/-- The evaluation record that saveLatestProcessMemory stores. -/
def evaluationOfSaveArgs (a : SaveArgs) : CachedEvaluation :=
  { processId := a.processId, moduleId := a.moduleId, timestamp := a.timestamp,
    epoch := a.epoch, nonce := a.nonce, blockHeight := a.blockHeight,
    ordinate := a.ordinate, encoding := "gzip", cron := a.cron }

/-- ao-process.js saveLatestProcessMemoryWith, with the zlib gzip
dependency passed in as a function on byte lists. The guard mirrors the
source: when an entry is cached and isLaterThan holds of the entry
object against the incoming timestamp and cron, return without
touching the cache; otherwise gzip the memory and overwrite the
entry. -/
def saveLatestProcessMemory (gzipP : List Nat → List Nat) (cache : Cache) (a : SaveArgs) : Cache :=
  match cacheGet cache a.processId with
  | some cached =>
    if isLaterThan (cacheEntryGuardFields cached) { timestamp := a.timestamp, cron := a.cron } then
      cache
    else
      cacheSet cache a.processId
        { Memory := gzipP a.Memory, evaluation := evaluationOfSaveArgs a }
  | none =>
    cacheSet cache a.processId
      { Memory := gzipP a.Memory, evaluation := evaluationOfSaveArgs a }

/-- A tag on a gateway GraphQL transaction node. -/
structure GQLTag where
  name : String
  value : String
deriving DecidableEq

/-- A gateway GraphQL transaction node, as selected by the Checkpoint
queries in ao-process.js. -/
structure GQLNode where
  id : String
  ownerAddress : String
  tags : List GQLTag
deriving DecidableEq

/-- ao-process.js pluckTagValue: the value of the first tag with the
given name, undefined when absent. -/
def pluckTagValue (n : String) (tags : List GQLTag) : JSVal :=
  match tags.find? (fun t => t.name == n) with
  | some t => .str t.value
  | none => .undefined

/-- The checkpoint shape that determineLatestCheckpointBefore maps each
gateway node to; every field except id is a tag lookup. -/
structure CheckpointMeta where
  id : String
  timestamp : JSVal
  ordinate : JSVal
  blockHeight : JSVal
  cron : JSVal
  encoding : JSVal
deriving DecidableEq

def nodeToCheckpointMeta (node : GQLNode) : CheckpointMeta :=
  { id := node.id,
    timestamp := pluckTagValue "Timestamp" node.tags,
    ordinate := pluckTagValue "Nonce" node.tags,
    blockHeight := pluckTagValue "Block-Height" node.tags,
    cron := pluckTagValue "Cron-Interval" node.tags,
    encoding := pluckTagValue "Content-Encoding" node.tags }

/-- The requested position given to findProcessMemoryBefore. -/
structure TargetPos where
  timestamp : JSVal
  ordinate : JSVal
  cron : JSVal
deriving DecidableEq

def targetFields (t : TargetPos) : JSEvalRec :=
  { timestamp := t.timestamp, cron := t.cron }

def checkpointFields (c : CheckpointMeta) : JSEvalRec :=
  { timestamp := c.timestamp, cron := c.cron }

/-- ao-process.js determineLatestCheckpointBefore: the transduce over
the gateway edges, mapping each node to its checkpoint fields and
reducing with the latest-so-far accumulator that starts undefined. -/
def determineLatestCheckpointBefore (t : TargetPos) (edges : List GQLNode) : Option CheckpointMeta :=
  edges.foldl
    (fun latest node =>
      let checkpoint := nodeToCheckpointMeta node
      match latest with
      | none => some checkpoint
      | some l =>
        if isLaterThan (targetFields t) (checkpointFields checkpoint) then some l
        else if isEarlierThan (checkpointFields l) (checkpointFields checkpoint) then some l
        else some checkpoint)
    none

/-- The variables of the GetAoProcessCheckpoint gateway query that
saveCheckpointWith issues before publishing. -/
structure CheckpointQueryVars where
  owner : String
  processId : String
  nonce : String
  timestamp : String
  cron : Option String
deriving DecidableEq

/-- The arguments of saveCheckpoint, an evaluation with its gzipped
memory. The source casts nonce and timestamp with template strings, so
they are kept numeric here and stringified at the query. -/
structure SaveCheckpointArgs where
  Memory : List Nat
  encoding : Option String
  processId : String
  moduleId : String
  timestamp : Int
  epoch : Int
  nonce : Int
  blockHeight : Int
  cron : Option String
deriving DecidableEq

/-- The unsigned Checkpoint data item handed to buildAndSignDataItem. -/
structure DataItemDraft where
  data : List Nat
  tags : List GQLTag
deriving DecidableEq

/-- ao-process.js createCheckpointDataItem: hash the wasm memory and lay
out the Checkpoint tags, appending Cron-Interval and Content-Encoding
exactly when cron and encoding are truthy. The hashWasmMemory
dependency is passed in. -/
def createCheckpointDataItem (hashWasmMemory : List Nat → Option String → String)
    (a : SaveCheckpointArgs) : DataItemDraft :=
  let sha := hashWasmMemory a.Memory a.encoding
  let baseTags : List GQLTag :=
    [ { name := "Data-Protocol", value := "ao" },
      { name := "Variant", value := "ao.TN.1" },
      { name := "Type", value := "Checkpoint" },
      { name := "Module", value := a.moduleId.trim },
      { name := "Process", value := a.processId.trim },
      { name := "Epoch", value := (toString a.epoch).trim },
      { name := "Nonce", value := (toString a.nonce).trim },
      { name := "Timestamp", value := (toString a.timestamp).trim },
      { name := "Block-Height", value := (toString a.blockHeight).trim },
      { name := "Content-Type", value := "application/octet-stream" },
      { name := "SHA-256", value := sha } ]
  let cronTags :=
    if jsTruthyOptStr a.cron then baseTags ++ [{ name := "Cron-Interval", value := a.cron.getD "" }]
    else baseTags
  let allTags :=
    if jsTruthyOptStr a.encoding then cronTags ++ [{ name := "Content-Encoding", value := a.encoding.getD "" }]
    else cronTags
  { data := a.Memory, tags := allTags }

/-- The query variables saveCheckpoint builds from the owner address and
the evaluation. -/
def mkCheckpointQueryVars (owner : String) (a : SaveCheckpointArgs) : CheckpointQueryVars :=
  { owner := owner, processId := a.processId, nonce := toString a.nonce,
    timestamp := toString a.timestamp, cron := a.cron }

/-- ao-process.js saveCheckpointWith: query the gateway for an existing
Checkpoint of this evaluation (the query includes the Cron-Interval
filter exactly when cron is truthy, mirroring the withCron flag), take
the first edge, and noop when one exists; otherwise build, sign and
upload the Checkpoint data item. The gateway is passed in as a function
from the withCron flag and the variables to the edge list; the returned
value is the item handed to the signer and uploader, so none means
neither signing nor uploading was invoked. -/
def saveCheckpoint (queryGateway : Bool → CheckpointQueryVars → List GQLNode)
    (hashWasmMemory : List Nat → Option String → String)
    (owner : String) (a : SaveCheckpointArgs) : Option DataItemDraft :=
  match (queryGateway (jsTruthyOptStr a.cron) (mkCheckpointQueryVars owner a)).head? with
  | some _ => none
  | none => some (createCheckpointDataItem hashWasmMemory a)

/-- The message fields that the hydration transforms read and write.
The source keys Forwarded-By and Forwarded-For are hyphenated. -/
structure MessageInner where
  Id : JSVal
  Data : JSVal
  Tags : List GQLTag
  Target : JSVal
  Anchor : JSVal
  ForwardedBy : JSVal
  ForwardedFor : JSVal
deriving DecidableEq

/-- A message flowing through the hydration pipeline. -/
structure HydrationMessage where
  sortKey : String
  message : MessageInner
  deepHash : Option String
deriving DecidableEq

/-- The argument object of calcDataItemDeepHash. -/
structure DeepHashArgs where
  data : JSVal
  tags : List GQLTag
  target : JSVal
  anchor : JSVal
deriving DecidableEq

def deepHashArgsOf (m : MessageInner) : DeepHashArgs :=
  { data := m.Data, tags := m.Tags, target := m.Target, anchor := m.Anchor }

/-- hydrateMessages.js maybeMessageId as a transform of the drained
stream. calcDataItemDeepHash (the warp-arbundles signature-data digest
with the zero-owner signer) is passed in as a fallible function. A
message whose Forwarded-By is falsy is yielded unchanged; otherwise
the deep hash is computed and attached as deepHash, and a computation
error is logged and rethrown, which fails the whole stream. -/
def maybeMessageId (calcDataItemDeepHash : DeepHashArgs → Except String String) :
    List HydrationMessage → Except String (List HydrationMessage)
  | [] => .ok []
  | cur :: rest =>
    if !(jsTruthy cur.message.ForwardedBy) then
      (maybeMessageId calcDataItemDeepHash rest).map (fun l => cur :: l)
    else
      match calcDataItemDeepHash (deepHashArgsOf cur.message) with
      | .error e => .error e
      | .ok dh =>
        (maybeMessageId calcDataItemDeepHash rest).map
          (fun l => { cur with deepHash := some dh } :: l)

/-- JavaScript String.split on a comma: always at least one field, an
empty input string giving the single empty field. -/
def splitComma : List Char → List (List Char)
  | [] => [[]]
  | c :: rest =>
    if c = ',' then [] :: splitComma rest
    else (c :: (splitComma rest).headD []) :: (splitComma rest).tail

/-- JavaScript Array.join on a comma. -/
def joinComma : List (List Char) → List Char
  | [] => []
  | [f] => f
  | f :: rest => f ++ ',' :: joinComma rest

/-- JavaScript padStart of a field to 12 characters with the zero
character. -/
def padStart12 (l : List Char) : List Char :=
  List.replicate (12 - l.length) '0' ++ l

/-- part_000 padBlockHeight: a falsy (empty) sort key is returned as
is, otherwise the key is split on commas, the first field is padded to
12 characters, and the fields are joined back. The match on the empty
field list is unreachable because splitComma never returns it. -/
def padBlockHeight (s : String) : String :=
  if s.data.isEmpty then s
  else
    match splitComma s.data with
    | [] => s
    | h :: rest => String.mk (joinComma (padStart12 h :: rest))

/-- JavaScript parseInt on the strings reaching it here: the value of
the leading run of decimal digits, none standing for NaN when there is
no such run. -/
def parseIntJS (s : String) : Option Nat :=
  match s.data.takeWhile Char.isDigit with
  | [] => none
  | ds => some (decDigitsVal ds)

/-- The increment step of the to bound inside part_000 mapBounds: a
falsy key is returned as is, a key of more than one field is rejoined
unchanged, and a lone block height is parsed and incremented, the sum
being stringified (on a NaN parse the stringified sum is the string
NaN). -/
def incStep (s : String) : String :=
  if s.data.isEmpty then s
  else
    match splitComma s.data with
    | [] => s
    | h :: rest =>
      if rest.length > 0 then String.mk (joinComma (h :: rest))
      else if h.isEmpty then String.mk h
      else
        match parseIntJS (String.mk h) with
        | some n => Nat.repr (n + 1)
        | none => "NaN"

/-- The full transformation of the to bound in part_000 mapBounds: the
increment step piped into padBlockHeight. -/
def incrementBound (s : String) : String := padBlockHeight (incStep s)

/-- The request context of loadInteractions. The source field names are
from and to; from is a Lean keyword, hence fromBound and toBound. -/
structure Bounds where
  id : String
  fromBound : String
  toBound : String
deriving DecidableEq

/-- part_000 mapBounds: evolve the context, padding the from bound and
incrementing then padding the to bound. -/
def mapBounds (b : Bounds) : Bounds :=
  { b with fromBound := padBlockHeight b.fromBound, toBound := incrementBound b.toBound }

/-- One interaction of a sequencer interactions-sort-key page, after
the zod coercion of the block fields to numbers. -/
structure SUInteraction where
  sortKey : String
  tags : List GQLTag
  blockId : String
  blockHeight : Int
  blockTimestamp : Int
deriving DecidableEq

/-- The shape loadInteractions produces per interaction. -/
structure OutInteraction where
  sortKey : String
  action : JSVal
deriving DecidableEq

/-- The ramda reduce of assoc over the tags builds an object whose
Input property holds the value of the last tag named Input. -/
def lastTagValue (n : String) (tags : List GQLTag) : JSVal :=
  match tags.reverse.find? (fun t => t.name == n) with
  | some t => .str t.value
  | none => .undefined

/-- The applySpec step of the loadInteractions transducer: keep the
sortKey and parse the Input tag value as the action. JSON.parse is
passed in. -/
def toOutInteraction (jsonParse : JSVal → JSVal) (i : SUInteraction) : OutInteraction :=
  { sortKey := i.sortKey, action := jsonParse (lastTagValue "Input" i.tags) }

/-- part_000 loadInteractionsWith. The sequencer endpoint is modeled as
the list of pages it would serve to successive requests for the mapped
bounds. The implementation performs exactly one fetch (the source
carries a TODO about loading further pages), so only the first page is
consumed; the transducer unshifts each mapped interaction into the
accumulator, which reverses the page the sequencer sent in descending
block height order. -/
def loadInteractions (jsonParse : JSVal → JSVal)
    (su : Bounds → List (List SUInteraction)) (b : Bounds) : List OutInteraction :=
  let pages := su (mapBounds b)
  let interactions := pages.headD []
  interactions.foldl (fun acc input => toOutInteraction jsonParse input :: acc) []

/-- A sequencer response to the POST of a signed message data item. -/
structure SUResponse where
  ok : Bool
  status : Int
  bodyText : String
  jsonBody : String
deriving DecidableEq

/-- The errors the writeMessage chain can reject with. -/
inductive WriteMessageError where
  | typeError (msg : String)
  | statusError (status : Int) (text : String)
deriving DecidableEq

/-- worker.js writeMessageWith, the callback given to fromPromise: its
body is a block statement that calls fetch but never returns the fetch
promise, so the value the promise chain carries onward is undefined,
whatever response the sequencer sent. -/
def writeMessageFetchStep (_resp : SUResponse) : Option SUResponse := none

/-- worker.js writeMessageWith, the success continuation of the
bichain: with an undefined res the optional-chain read of ok is
undefined hence falsy, and the call of text on undefined then throws a
TypeError; with an actual response, a non-ok response raises the
status and body text, and an ok response parses the JSON body. -/
def writeMessageHandle : Option SUResponse → Except WriteMessageError String
  | none => .error (.typeError "Cannot read properties of undefined")
  | some r => if !r.ok then .error (.statusError r.status r.bodyText) else .ok r.jsonBody

/-- worker.js writeMessageWith: POST the signed data item to the
sequencer message endpoint with the octet-stream content type and
handle the response. The modeled input is the response the sequencer
sends back; the result is what the returned promise settles to. -/
def writeMessage (resp : SUResponse) : Except WriteMessageError String :=
  writeMessageHandle (writeMessageFetchStep resp)

/-- A scheduled message as the CU scheduled endpoint returns it: the
scheduledSortKey plus the rest of the message, kept opaque. -/
structure SchedMsg where
  scheduledSortKey : String
  body : String
deriving DecidableEq

/-- A monitor record of the MU monitor worker. -/
structure MonitorRec where
  id : String
  lastFromSortKey : Option String
  interval : String
  createdAt : Int
deriving DecidableEq

/-- A message document as saveMsg persists it: the scheduled message
with its scheduledSortKey deleted, under the fresh batch id. -/
structure SavedDbMsg where
  fromTxId : String
  msgBody : String
deriving DecidableEq

/-- worker.js fetchScheduled: the parsed JSON of the CU scheduled
endpoint, or undefined when the fetch threw, since the catch only
logs and the function then returns nothing. -/
def fetchScheduled (cuResponse : Except String (List SchedMsg)) (_monitor : MonitorRec) :
    Option (List SchedMsg) :=
  match cuResponse with
  | .error _ => none
  | .ok l => some l

/-- What a processMonitor run returns or throws. -/
inductive RunReturn where
  | emptyReturn : RunReturn
  | okStatus : RunReturn
  | errored (e : String) : RunReturn
deriving DecidableEq

/-- The observable effects of one processMonitor run: the message
documents whose saveMsg succeeded, whether crankMsgs was invoked, the
monitor record passed to updateMonitor when it was called, the
in-memory monitor object at the end of the run, and the return. -/
structure RunEffects where
  savedMsgs : List SavedDbMsg
  crankInvoked : Bool
  persistedMonitor : Option MonitorRec
  monitorAfter : MonitorRec
  ret : RunReturn
deriving DecidableEq

def toSavedDbMsg (fromTxId : String) (m : SchedMsg) : SavedDbMsg :=
  { fromTxId := fromTxId, msgBody := m.body }

/-- worker.js processMonitor with the external effects injected:
cuResponse feeds fetchScheduled, fromTxId stands for the random batch
id, saveMsgOk tells which saveMsg promises fulfill (Promise.all
rejects when any fails, but every save was already started), and
crankOk tells whether the crankMsgs promise resolves. On the empty and
undefined fetch results the run returns at once; the monitor object is
mutated and handed to updateMonitor only after the saves and the crank
have all succeeded. -/
def processMonitor (monitor : MonitorRec) (cuResponse : Except String (List SchedMsg))
    (fromTxId : String) (saveMsgOk : SavedDbMsg → Bool) (crankOk : Bool) : RunEffects :=
  match fetchScheduled cuResponse monitor with
  | none =>
    { savedMsgs := [], crankInvoked := false, persistedMonitor := none,
      monitorAfter := monitor, ret := .emptyReturn }
  | some scheduled =>
    if scheduled.length < 1 then
      { savedMsgs := [], crankInvoked := false, persistedMonitor := none,
        monitorAfter := monitor, ret := .emptyReturn }
    else
      let savePromises := scheduled.map (toSavedDbMsg fromTxId)
      let savedMsgs := savePromises.filter saveMsgOk
      if !(savePromises.all saveMsgOk) then
        { savedMsgs := savedMsgs, crankInvoked := false, persistedMonitor := none,
          monitorAfter := monitor, ret := .errored "saveMsg rejected" }
      else if !crankOk then
        { savedMsgs := savedMsgs, crankInvoked := true, persistedMonitor := none,
          monitorAfter := monitor, ret := .errored "crankMsgs rejected" }
      else
        match scheduled.getLast? with
        | none =>
          { savedMsgs := savedMsgs, crankInvoked := true, persistedMonitor := none,
            monitorAfter := monitor, ret := .errored "unreachable" }
        | some lastScheduled =>
          let updated := { monitor with lastFromSortKey := some lastScheduled.scheduledSortKey }
          { savedMsgs := savedMsgs, crankInvoked := true, persistedMonitor := some updated,
            monitorAfter := updated, ret := .okStatus }

/-! Concrete inputs used by the example, counterexample and witness
theorems below. -/

/-- A cached evaluation at timestamp 10 for the cache claims. -/
def c1CachedEval : CachedEvaluation :=
  { processId := "p1", moduleId := "m1", timestamp := .num 10, epoch := .num 0,
    nonce := .num 3, blockHeight := .num 100, ordinate := .str "3",
    encoding := "gzip", cron := .undefined }

def c1Entry : CacheEntry := { Memory := [7, 7], evaluation := c1CachedEval }

def c1Cache : Cache := [("p1", c1Entry)]

/-- An incoming save at the earlier timestamp 5 for the same process. -/
def c1Args : SaveArgs :=
  { processId := "p1", moduleId := "m1", messageId := "msg0", timestamp := .num 5,
    epoch := .num 0, nonce := .num 1, ordinate := .str "1", cron := .undefined,
    blockHeight := .num 90, Memory := [1, 2, 3] }

/-- A stand-in for the injected zlib gzip function. -/
def c1Gzip : List Nat → List Nat := fun m => 31 :: 139 :: m

/-- A sequencer response with a 2xx status and a JSON body. -/
def c2OkResponse : SUResponse :=
  { ok := true, status := 200, bodyText := "", jsonBody := "id-abc" }

/-- A sequencer response with a non-2xx status and an error body. -/
def c2BadResponse : SUResponse :=
  { ok := false, status := 400, bodyText := "bad data item", jsonBody := "" }

def c3IntB : SUInteraction :=
  { sortKey := "000000000003,300,bb", tags := [{ name := "Input", value := "b" }],
    blockId := "blk3", blockHeight := 3, blockTimestamp := 300 }

def c3IntA : SUInteraction :=
  { sortKey := "000000000002,200,aa", tags := [{ name := "Input", value := "a" }],
    blockId := "blk2", blockHeight := 2, blockTimestamp := 200 }

def c3IntC : SUInteraction :=
  { sortKey := "000000000001,100,cc", tags := [{ name := "Input", value := "c" }],
    blockId := "blk1", blockHeight := 1, blockTimestamp := 100 }

/-- A sequencer that serves a first descending page with two
interactions and then a second nonempty page with one more interaction
inside the same bounds. -/
def c3Su : Bounds → List (List SUInteraction) := fun _ => [[c3IntB, c3IntA], [c3IntC]]

def c3Bounds : Bounds := { id := "proc-1", fromBound := "1", toBound := "3" }

/-- A stand-in for JSON.parse on the Input tag values. -/
def c3JsonParse : JSVal → JSVal := fun v => v

/-- A message carrying Forwarded-For but no Forwarded-By. -/
def c4FwdForMsg : HydrationMessage :=
  { sortKey := "k1",
    message :=
      { Id := .str "id1", Data := .str "d", Tags := [], Target := .str "t1",
        Anchor := .str "", ForwardedBy := .undefined, ForwardedFor := .str "procX" },
    deepHash := none }

/-- A message carrying Forwarded-By. -/
def c4FwdByMsg : HydrationMessage :=
  { sortKey := "k2",
    message :=
      { Id := .str "id2", Data := .str "d2", Tags := [], Target := .str "t2",
        Anchor := .str "", ForwardedBy := .str "mu-addr", ForwardedFor := .str "procX" },
    deepHash := none }

/-- A deep hash computation that always succeeds. -/
def c4Calc : DeepHashArgs → Except String String := fun _ => .ok "dh-1"

/-- A deep hash computation that always throws. -/
def c4CalcErr : DeepHashArgs → Except String String := fun _ => .error "boom"

/-- The requested position at timestamp 16. -/
def c5Target : TargetPos := { timestamp := .num 16, ordinate := .str "4", cron := .undefined }

/-- A gateway checkpoint node later than the requested position. -/
def c5NodeLate : GQLNode :=
  { id := "cp-late", ownerAddress := "own",
    tags := [ { name := "Timestamp", value := "20" }, { name := "Nonce", value := "7" },
              { name := "Block-Height", value := "200" } ] }

/-- A gateway checkpoint node not later than the requested position. -/
def c5NodeEarly : GQLNode :=
  { id := "cp-early", ownerAddress := "own",
    tags := [ { name := "Timestamp", value := "15" }, { name := "Nonce", value := "5" },
              { name := "Block-Height", value := "150" } ] }

/-- An existing checkpoint edge on the gateway. -/
def c6Edge : GQLNode := { id := "existing-cp", ownerAddress := "self", tags := [] }

/-- A gateway on which the checkpoint of every queried tuple exists. -/
def c6Gateway : Bool → CheckpointQueryVars → List GQLNode := fun _ _ => [c6Edge]

def c6Hash : List Nat → Option String → String := fun _ _ => "sha-stub"

def c6Args : SaveCheckpointArgs :=
  { Memory := [1, 2], encoding := some "gzip", processId := "p1", moduleId := "m1",
    timestamp := 10, epoch := 0, nonce := 4, blockHeight := 100, cron := none }

def c10Monitor : MonitorRec :=
  { id := "pm", lastFromSortKey := none, interval := "1000", createdAt := 0 }

def c10Sched : List SchedMsg :=
  [ { scheduledSortKey := "sk1", body := "m1" }, { scheduledSortKey := "sk2", body := "m2" } ]

/-! Helper lemmas. -/

theorem jsGt_num (a b : Int) : jsGt (.num a) (.num b) = decide (b < a) := rfl

theorem jsGt_str (a b : String) : jsGt (.str a) (.str b) = decide (b.data < a.data) := rfl

theorem jsStrictEq_num (a b : Int) : jsStrictEq (.num a) (.num b) = (a == b) := rfl

theorem jsOrEmptyStr_ofOptStr (o : Option String) :
    jsOrEmptyStr (jsOfOptStr o) = .str (o.getD "") := by
  cases o with
  | none => rfl
  | some s =>
    by_cases h : s = "" <;> simp [jsOfOptStr, jsOrEmptyStr, jsTruthy, h]

/-- C7: isLaterThan of evaluations with numeric timestamps is the
lexicographic order on the timestamp and then the cron tag with
empty-string default; in particular the two concrete scenarios of the
spec hold. -/
theorem isLaterThan_orders_by_timestamp_then_cron :
    (∀ (ta tb : Int) (ca cb : Option String),
      (isLaterThan { timestamp := .num ta, cron := jsOfOptStr ca }
          { timestamp := .num tb, cron := jsOfOptStr cb } = true
        ↔ (ta < tb ∨ (ta = tb ∧ (ca.getD "").data < (cb.getD "").data))))
    ∧ isLaterThan { timestamp := .num 10, cron := .str "" }
        { timestamp := .num 10, cron := .str "1m" } = true
    ∧ isLaterThan { timestamp := .num 10, cron := .undefined }
        { timestamp := .num 11, cron := .undefined } = true := by
  refine ⟨?_, by decide, by decide⟩
  intro ta tb ca cb
  simp only [isLaterThan, jsStrictEq_num, jsOrEmptyStr_ofOptStr, jsGt_str, jsGt_num]
  by_cases h : tb = ta
  · subst h
    simp
  · have hne : ¬ ta = tb := fun hc => h hc.symm
    simp [h, hne]

/-- C1: with an evaluation at timestamp 10 cached, a save at the
earlier timestamp 5 overwrites the entry although the cached
evaluation is later than the incoming one. The guard of
saveLatestProcessMemoryWith reads the timestamp and cron fields off
the cache entry object, which does not have them, so the no-op branch
is unreachable for real (numeric-timestamp) saves. -/
theorem saveLatestProcessMemory_overwrites_earlier_eval :
    isLaterThan { timestamp := c1Args.timestamp, cron := c1Args.cron }
      { timestamp := c1CachedEval.timestamp, cron := c1CachedEval.cron } = true
    ∧ saveLatestProcessMemory c1Gzip c1Cache c1Args ≠ c1Cache
    ∧ cacheGet (saveLatestProcessMemory c1Gzip c1Cache c1Args) "p1"
        = some { Memory := c1Gzip c1Args.Memory, evaluation := evaluationOfSaveArgs c1Args } := by
  refine ⟨by decide, by decide, by decide⟩

/-- C2: the fromPromise callback of writeMessageWith never returns the
fetch promise, so the chain always rejects with a TypeError: a 2xx
response does not resolve to the parsed JSON body, and a non-2xx
response does not reject with its status and body text. -/
theorem writeMessage_rejects_every_response :
    writeMessage c2OkResponse = .error (.typeError "Cannot read properties of undefined")
    ∧ writeMessage c2BadResponse = .error (.typeError "Cannot read properties of undefined")
    ∧ writeMessage c2OkResponse ≠ .ok c2OkResponse.jsonBody
    ∧ writeMessage c2BadResponse
        ≠ .error (.statusError c2BadResponse.status c2BadResponse.bodyText) := by
  refine ⟨rfl, rfl, by simp [writeMessage, writeMessageFetchStep, writeMessageHandle], ?_⟩
  intro h
  simp [writeMessage, writeMessageFetchStep, writeMessageHandle] at h

/-- C5: with a requested position at timestamp 16 and the gateway
returning a checkpoint at timestamp 20 first (height-descending order)
and one at timestamp 15 second, determineLatestCheckpointBefore keeps
the first checkpoint, which is later than the requested position,
although the second one is usable: the reducer takes the first mapped
edge unconditionally. -/
theorem determineLatestCheckpointBefore_takes_first_even_if_later :
    determineLatestCheckpointBefore c5Target [c5NodeLate, c5NodeEarly]
      = some (nodeToCheckpointMeta c5NodeLate)
    ∧ isLaterThan (targetFields c5Target) (checkpointFields (nodeToCheckpointMeta c5NodeLate)) = true
    ∧ isLaterThan (targetFields c5Target) (checkpointFields (nodeToCheckpointMeta c5NodeEarly)) = false := by
  refine ⟨by decide, by decide, by decide⟩

/-- C6: when the gateway query for (owner, processId, nonce, timestamp
and, when a cron is present, the cron) returns an edge, saveCheckpoint
performs no signing and no upload: the result is none, meaning the
data item builder and uploader were never invoked. -/
theorem saveCheckpoint_noop_when_already_published
    (queryGateway : Bool → CheckpointQueryVars → List GQLNode)
    (hashWasmMemory : List Nat → Option String → String)
    (owner : String) (a : SaveCheckpointArgs) (edge : GQLNode)
    (h : (queryGateway (jsTruthyOptStr a.cron) (mkCheckpointQueryVars owner a)).head? = some edge) :
    saveCheckpoint queryGateway hashWasmMemory owner a = none := by
  unfold saveCheckpoint
  rw [h]

/-- C6 witness: a concrete gateway on which the Checkpoint of the
queried tuple already exists makes saveCheckpoint a no-op. -/
theorem saveCheckpoint_noop_when_already_published_witness :
    saveCheckpoint c6Gateway c6Hash "self" c6Args = none :=
  saveCheckpoint_noop_when_already_published c6Gateway c6Hash "self" c6Args c6Edge rfl

theorem splitComma_ne_nil (l : List Char) : splitComma l ≠ [] := by
  cases l with
  | nil => simp [splitComma]
  | cons c rest => by_cases h : c = ',' <;> simp [splitComma, h]

theorem comma_not_mem_splitComma : ∀ (l : List Char), ∀ f ∈ splitComma l, ',' ∉ f := by
  intro l
  induction l with
  | nil =>
    intro f hf
    simp [splitComma] at hf
    simp [hf]
  | cons c rest ih =>
    intro f hf
    by_cases h : c = ','
    · simp [splitComma, h] at hf
      rcases hf with hf | hf
      · simp [hf]
      · exact ih f hf
    · simp [splitComma, h] at hf
      rcases hf with hf | hf
      · subst hf
        intro hmem
        rcases List.mem_cons.mp hmem with h1 | h1
        · exact h h1.symm
        · cases hr : splitComma rest with
          | nil => exact absurd hr (splitComma_ne_nil rest)
          | cons g gs =>
            rw [hr] at h1
            exact ih g (by rw [hr]; exact List.mem_cons_self g gs) (by simpa using h1)
      · cases hr : splitComma rest with
        | nil => exact absurd hr (splitComma_ne_nil rest)
        | cons g gs =>
          rw [hr] at hf
          exact ih f (by rw [hr]; exact List.mem_cons_of_mem g (by simpa using hf))

theorem splitComma_no_comma (f : List Char) (h : ',' ∉ f) : splitComma f = [f] := by
  induction f with
  | nil => rfl
  | cons c cs ih =>
    have hc : ¬ c = ',' := fun hc => h (hc ▸ List.mem_cons_self c cs)
    have hcs : ',' ∉ cs := fun hm => h (List.mem_cons_of_mem c hm)
    simp [splitComma, hc, ih hcs]

theorem splitComma_append_comma (f r : List Char) (h : ',' ∉ f) :
    splitComma (f ++ ',' :: r) = f :: splitComma r := by
  induction f with
  | nil => simp [splitComma]
  | cons c cs ih =>
    have hc : ¬ c = ',' := fun hc => h (hc ▸ List.mem_cons_self c cs)
    have hcs : ',' ∉ cs := fun hm => h (List.mem_cons_of_mem c hm)
    simp [splitComma, hc, ih hcs]

theorem splitComma_joinComma : ∀ (fs : List (List Char)), fs ≠ [] → (∀ f ∈ fs, ',' ∉ f) →
    splitComma (joinComma fs) = fs := by
  intro fs
  induction fs with
  | nil => intro h _; exact absurd rfl h
  | cons f gs ih =>
    intro _ hall
    cases gs with
    | nil =>
      show splitComma f = [f]
      exact splitComma_no_comma f (hall f (List.mem_cons_self f []))
    | cons g gs2 =>
      show splitComma (f ++ ',' :: joinComma (g :: gs2)) = f :: g :: gs2
      rw [splitComma_append_comma f _ (hall f (List.mem_cons_self f (g :: gs2)))]
      rw [ih (by simp) (fun x hx => hall x (List.mem_cons_of_mem f hx))]

theorem padStart12_ne_nil (l : List Char) : padStart12 l ≠ [] := by
  intro h
  rcases List.append_eq_nil.mp h with ⟨h1, h2⟩
  rw [h2] at h1
  simp at h1

theorem comma_not_mem_padStart12 (l : List Char) (h : ',' ∉ l) : ',' ∉ padStart12 l := by
  intro hm
  rcases List.mem_append.mp hm with hm | hm
  · exact absurd (List.eq_of_mem_replicate hm) (by decide)
  · exact h hm

theorem padStart12_idem (l : List Char) : padStart12 (padStart12 l) = padStart12 l := by
  have hlen : (padStart12 l).length = (12 - l.length) + l.length := by
    simp [padStart12]
  have h0 : 12 - (padStart12 l).length = 0 := by rw [hlen]; omega
  show List.replicate (12 - (padStart12 l).length) '0' ++ padStart12 l = padStart12 l
  rw [h0]
  simp

theorem joinComma_cons_cons_ne_nil (h g : List Char) (gs : List (List Char)) :
    joinComma (h :: g :: gs) ≠ [] := by
  simp [joinComma]

theorem joinComma_padded_ne_nil (h : List Char) (rest : List (List Char)) :
    joinComma (padStart12 h :: rest) ≠ [] := by
  cases rest with
  | nil => simpa [joinComma] using padStart12_ne_nil h
  | cons g gs => exact joinComma_cons_cons_ne_nil _ _ _

theorem digitChar_ne_comma (n : Nat) (hn : n < 10) : Nat.digitChar n ≠ ',' := by
  interval_cases n <;> decide

theorem toDigitsCore_ne_comma :
    ∀ (f n : Nat) (acc : List Char), ',' ∉ acc → ',' ∉ Nat.toDigitsCore 10 f n acc := by
  intro f
  induction f with
  | zero =>
    intro n acc hacc
    simpa [Nat.toDigitsCore] using hacc
  | succ f ih =>
    intro n acc hacc
    have hd : ',' ∉ Nat.digitChar (n % 10) :: acc := by
      intro hm
      rcases List.mem_cons.mp hm with hm | hm
      · exact digitChar_ne_comma (n % 10) (Nat.mod_lt n (by omega)) hm.symm
      · exact hacc hm
    show ',' ∉
      (if n / 10 = 0 then Nat.digitChar (n % 10) :: acc
       else Nat.toDigitsCore 10 f (n / 10) (Nat.digitChar (n % 10) :: acc))
    split
    · exact hd
    · exact ih _ _ hd

theorem toDigitsCore_ne_nil (b : Nat) :
    ∀ (f n : Nat) (acc : List Char), acc ≠ [] ∨ f ≠ 0 → Nat.toDigitsCore b f n acc ≠ [] := by
  intro f
  induction f with
  | zero =>
    intro n acc h
    rcases h with h | h
    · simpa [Nat.toDigitsCore] using h
    · exact absurd rfl h
  | succ f ih =>
    intro n acc _
    show (if n / b = 0 then Nat.digitChar (n % b) :: acc
          else Nat.toDigitsCore b f (n / b) (Nat.digitChar (n % b) :: acc)) ≠ []
    split
    · simp
    · exact ih _ _ (Or.inl (by simp))

theorem comma_not_mem_repr (n : Nat) : ',' ∉ (Nat.repr n).data :=
  toDigitsCore_ne_comma (n + 1) n [] (by simp)

theorem repr_data_ne_nil (n : Nat) : (Nat.repr n).data ≠ [] :=
  toDigitsCore_ne_nil 10 (n + 1) n [] (Or.inr (Nat.succ_ne_zero n))

theorem string_mk_data (s : String) : String.mk s.data = s := by
  cases s
  rfl

theorem isEmpty_false_of_ne_nil {l : List Char} (h : l ≠ []) : l.isEmpty = false := by
  cases l with
  | nil => exact absurd rfl h
  | cons c cs => rfl

/-- padBlockHeight of a nonempty sort key whose fields are given by
splitComma: the first field is padded and the rest of the fields pass
through untouched, as seen by splitting the output again. -/
theorem splitComma_padBlockHeight (s : String) (h : List Char) (rest : List (List Char))
    (hne : s.data ≠ []) (hsplit : splitComma s.data = h :: rest) :
    padBlockHeight s = String.mk (joinComma (padStart12 h :: rest))
    ∧ splitComma (padBlockHeight s).data = padStart12 h :: rest := by
  have hie : s.data.isEmpty = false := isEmpty_false_of_ne_nil hne
  have heq : padBlockHeight s = String.mk (joinComma (padStart12 h :: rest)) := by
    simp [padBlockHeight, hie, hsplit]
  have hfields := comma_not_mem_splitComma s.data
  have hph : ',' ∉ padStart12 h :=
    comma_not_mem_padStart12 h (hfields h (by rw [hsplit]; exact List.mem_cons_self h rest))
  have hrestf : ∀ f ∈ rest, ',' ∉ f :=
    fun f hf => hfields f (by rw [hsplit]; exact List.mem_cons_of_mem h hf)
  refine ⟨heq, ?_⟩
  have hdata : (padBlockHeight s).data = joinComma (padStart12 h :: rest) := by rw [heq]
  rw [hdata]
  exact splitComma_joinComma (padStart12 h :: rest) (by simp)
    (fun f hf => by
      rcases List.mem_cons.mp hf with hf | hf
      · rw [hf]; exact hph
      · exact hrestf f hf)

theorem foldl_cons_map {α β : Type} (f : α → β) :
    ∀ (l : List α) (acc : List β),
      l.foldl (fun acc x => f x :: acc) acc = (l.map f).reverse ++ acc := by
  intro l
  induction l with
  | nil => intro acc; simp
  | cons x xs ih => intro acc; simp [ih]

/-- C3 counterexample: with a sequencer serving a first descending page
of two interactions and a second nonempty page holding one more
interaction inside the bounds, loadInteractions yields only the first
page reversed; the interaction of the second page is never fetched. -/
theorem loadInteractions_misses_later_pages :
    (loadInteractions c3JsonParse c3Su c3Bounds).map OutInteraction.sortKey
      = ["000000000002,200,aa", "000000000003,300,bb"]
    ∧ c3IntC ∈ (c3Su (mapBounds c3Bounds)).flatten
    ∧ ¬ c3IntC.sortKey ∈ (loadInteractions c3JsonParse c3Su c3Bounds).map OutInteraction.sortKey := by
  refine ⟨by decide, by decide, by decide⟩

/-- C3 amended: loadInteractions performs a single request and yields
exactly the first sequencer page, reversed into ascending order; when
that page arrives sorted descending by sortKey the output is in
non-decreasing sortKey order. Paging through further pages is not
implemented (the source carries a TODO for it). -/
theorem loadInteractions_reverses_single_page (jsonParse : JSVal → JSVal)
    (su : Bounds → List (List SUInteraction)) (b : Bounds) :
    loadInteractions jsonParse su b
      = (((su (mapBounds b)).headD []).map (toOutInteraction jsonParse)).reverse
    ∧ (List.Chain' (fun x y => ¬ x.sortKey.data < y.sortKey.data) ((su (mapBounds b)).headD []) →
       List.Chain' (fun x y => ¬ y.sortKey.data < x.sortKey.data)
         (loadInteractions jsonParse su b)) := by
  have h1 : loadInteractions jsonParse su b
      = (((su (mapBounds b)).headD []).map (toOutInteraction jsonParse)).reverse := by
    simp [loadInteractions, foldl_cons_map]
  refine ⟨h1, fun hdesc => ?_⟩
  rw [h1, List.chain'_reverse, List.chain'_map]
  exact hdesc

/-- C3 witness: the amended claim at the concrete sequencer. -/
theorem loadInteractions_reverses_single_page_witness :
    loadInteractions c3JsonParse c3Su c3Bounds
      = (((c3Su (mapBounds c3Bounds)).headD []).map (toOutInteraction c3JsonParse)).reverse
    ∧ List.Chain' (fun x y => ¬ y.sortKey.data < x.sortKey.data)
        (loadInteractions c3JsonParse c3Su c3Bounds) :=
  ⟨(loadInteractions_reverses_single_page c3JsonParse c3Su c3Bounds).1,
   (loadInteractions_reverses_single_page c3JsonParse c3Su c3Bounds).2
     (List.chain'_cons.mpr ⟨by decide, List.chain'_singleton _⟩)⟩

/-- C4 counterexample: a message with Forwarded-For set but no
Forwarded-By is yielded unchanged, with no deepHash attached: the
transform keys on Forwarded-By, not Forwarded-For. -/
theorem maybeMessageId_ignores_forwarded_for :
    jsTruthy c4FwdForMsg.message.ForwardedFor = true
    ∧ c4FwdForMsg.deepHash = none
    ∧ maybeMessageId c4Calc [c4FwdForMsg] = .ok [c4FwdForMsg] := by
  refine ⟨by decide, rfl, rfl⟩

/-- C4 amended: maybeMessageId computes and attaches deepHash for
exactly the messages whose Forwarded-By is set; every other message is
yielded unchanged with no deepHash; and a deep-hash computation
failure fails the whole stream. -/
theorem maybeMessageId_keys_on_forwarded_by
    (cdh : DeepHashArgs → Except String String) (m : HydrationMessage)
    (rest : List HydrationMessage) :
    (jsTruthy m.message.ForwardedBy = false →
      maybeMessageId cdh (m :: rest) = (maybeMessageId cdh rest).map (fun l => m :: l))
    ∧ (∀ dh, jsTruthy m.message.ForwardedBy = true → cdh (deepHashArgsOf m.message) = .ok dh →
      maybeMessageId cdh (m :: rest)
        = (maybeMessageId cdh rest).map (fun l => { m with deepHash := some dh } :: l))
    ∧ (∀ e, jsTruthy m.message.ForwardedBy = true → cdh (deepHashArgsOf m.message) = .error e →
      maybeMessageId cdh (m :: rest) = .error e) := by
  refine ⟨fun hf => ?_, fun dh hf hc => ?_, fun e hf hc => ?_⟩
  · simp [maybeMessageId, hf]
  · simp [maybeMessageId, hf, hc]
  · simp [maybeMessageId, hf, hc]

/-- C4 witness: the amended claim at concrete messages, a succeeding
and a failing deep-hash computation. -/
theorem maybeMessageId_keys_on_forwarded_by_witness :
    maybeMessageId c4Calc [c4FwdForMsg] = (maybeMessageId c4Calc []).map (fun l => c4FwdForMsg :: l)
    ∧ maybeMessageId c4Calc [c4FwdByMsg]
        = (maybeMessageId c4Calc []).map (fun l => { c4FwdByMsg with deepHash := some "dh-1" } :: l)
    ∧ maybeMessageId c4CalcErr [c4FwdByMsg] = .error "boom" :=
  ⟨(maybeMessageId_keys_on_forwarded_by c4Calc c4FwdForMsg []).1 (by decide),
   (maybeMessageId_keys_on_forwarded_by c4Calc c4FwdByMsg []).2.1 "dh-1" (by decide) rfl,
   (maybeMessageId_keys_on_forwarded_by c4CalcErr c4FwdByMsg []).2.2 "boom" (by decide) rfl⟩

/-- C8: incrementBound on the to bound: a lone all-digit block height
is parsed, incremented by one and left-padded to 12 characters; a key
of more than one comma-separated field keeps its remaining fields
intact, only the padding of the first field being applied; with the
two concrete scenarios of the spec. -/
theorem incrementBound_spec :
    (∀ (s : String), s.data ≠ [] → s.data.all Char.isDigit = true →
      incrementBound s = String.mk (padStart12 (Nat.repr (decDigitsVal s.data + 1)).data))
    ∧ (∀ (s : String) (h : List Char) (rest : List (List Char)),
      splitComma s.data = h :: rest → rest ≠ [] →
      splitComma (incrementBound s).data = padStart12 h :: rest)
    ∧ incrementBound "1257294" = "000001257295"
    ∧ incrementBound "1257294,1694181441598,fb1e" = "000001257294,1694181441598,fb1e" := by
  refine ⟨?_, ?_, by decide, by decide⟩
  · intro s hne hdig
    have hnc : ',' ∉ s.data :=
      fun hm => absurd (List.all_eq_true.mp hdig ',' hm) (by decide)
    have hsplit : splitComma s.data = [s.data] := splitComma_no_comma _ hnc
    have hie : s.data.isEmpty = false := isEmpty_false_of_ne_nil hne
    have htake : s.data.takeWhile Char.isDigit = s.data :=
      List.takeWhile_eq_self_iff.mpr (List.all_eq_true.mp hdig)
    have hparse : parseIntJS (String.mk s.data) = some (decDigitsVal s.data) := by
      show (match s.data.takeWhile Char.isDigit with
            | [] => none | ds => some (decDigitsVal ds)) = some (decDigitsVal s.data)
      rw [htake]
      cases hd : s.data with
      | nil => exact absurd hd hne
      | cons c cs => rfl
    have hstep : incStep s = Nat.repr (decDigitsVal s.data + 1) := by
      simp [incStep, hie, hsplit, hparse]
    have hrne : (Nat.repr (decDigitsVal s.data + 1)).data ≠ [] := repr_data_ne_nil _
    have hrnc : ',' ∉ (Nat.repr (decDigitsVal s.data + 1)).data := comma_not_mem_repr _
    have hpad := splitComma_padBlockHeight (Nat.repr (decDigitsVal s.data + 1))
      ((Nat.repr (decDigitsVal s.data + 1)).data) [] hrne (splitComma_no_comma _ hrnc)
    show padBlockHeight (incStep s)
        = String.mk (padStart12 (Nat.repr (decDigitsVal s.data + 1)).data)
    rw [hstep, hpad.1]
    rfl
  · intro s h rest hsplit hrest
    have hne : s.data ≠ [] := by
      intro hd
      rw [hd] at hsplit
      have heq : ([[]] : List (List Char)) = h :: rest := hsplit
      exact hrest (List.cons.inj heq.symm).2
    obtain ⟨g, gs, hrest2⟩ := List.exists_cons_of_ne_nil hrest
    subst hrest2
    have hie : s.data.isEmpty = false := isEmpty_false_of_ne_nil hne
    have hstep : incStep s = String.mk (joinComma (h :: g :: gs)) := by
      simp [incStep, hie, hsplit]
    have hfields := comma_not_mem_splitComma s.data
    have hall : ∀ f ∈ h :: g :: gs, ',' ∉ f :=
      fun f hf => hfields f (by rw [hsplit]; exact hf)
    have hjne : joinComma (h :: g :: gs) ≠ [] := joinComma_cons_cons_ne_nil h g gs
    have hsplit2 : splitComma (String.mk (joinComma (h :: g :: gs))).data = h :: g :: gs :=
      splitComma_joinComma _ (by simp) hall
    have hpb := splitComma_padBlockHeight (String.mk (joinComma (h :: g :: gs))) h (g :: gs)
      hjne hsplit2
    show splitComma (padBlockHeight (incStep s)).data = padStart12 h :: g :: gs
    rw [hstep]
    exact hpb.2

/-- C8 witness: the lone-height and multi-field branches at concrete
sort keys. -/
theorem incrementBound_spec_witness :
    incrementBound "1257294"
      = String.mk (padStart12 (Nat.repr (decDigitsVal ("1257294" : String).data + 1)).data)
    ∧ splitComma (incrementBound "12,34").data = padStart12 ['1', '2'] :: [['3', '4']] :=
  ⟨incrementBound_spec.1 "1257294" (by decide) (by decide),
   incrementBound_spec.2.1 "12,34" ['1', '2'] [['3', '4']] (by decide) (by decide)⟩

/-- C9: padBlockHeight pads the block height field of every sort key to
at least 12 characters and leaves every other comma-separated field
unchanged, and it is idempotent; with the concrete canonicalization
scenario of the spec. -/
theorem padBlockHeight_idempotent_and_fields :
    (∀ s : String, padBlockHeight (padBlockHeight s) = padBlockHeight s)
    ∧ (∀ (s : String) (h : List Char) (rest : List (List Char)),
      s.data ≠ [] → splitComma s.data = h :: rest →
      splitComma (padBlockHeight s).data = padStart12 h :: rest)
    ∧ (∀ l : List Char, 12 ≤ (padStart12 l).length)
    ∧ padBlockHeight "1257294,1694181441598,fb1e" = "000001257294,1694181441598,fb1e" := by
  refine ⟨?_, ?_, ?_, by decide⟩
  · intro s
    by_cases hne : s.data = []
    · simp [padBlockHeight, hne]
    · cases hs : splitComma s.data with
      | nil => exact absurd hs (splitComma_ne_nil _)
      | cons h rest =>
        obtain ⟨heq, hsplit2⟩ := splitComma_padBlockHeight s h rest hne hs
        have hne2 : (padBlockHeight s).data ≠ [] := by
          rw [heq]
          exact joinComma_padded_ne_nil h rest
        obtain ⟨heq2, _⟩ :=
          splitComma_padBlockHeight (padBlockHeight s) (padStart12 h) rest hne2 hsplit2
        rw [heq2, padStart12_idem, ← heq]
  · intro s h rest hne hsplit
    exact (splitComma_padBlockHeight s h rest hne hsplit).2
  · intro l
    simp only [padStart12, List.length_append, List.length_replicate]
    omega

/-- C9 witness: idempotence, field preservation and the padding length
bound at a concrete sort key. -/
theorem padBlockHeight_idempotent_and_fields_witness :
    padBlockHeight (padBlockHeight "12,34") = padBlockHeight "12,34"
    ∧ splitComma (padBlockHeight "12,34").data = padStart12 ['1', '2'] :: [['3', '4']]
    ∧ 12 ≤ (padStart12 ['1', '2']).length :=
  ⟨padBlockHeight_idempotent_and_fields.1 "12,34",
   padBlockHeight_idempotent_and_fields.2.1 "12,34" ['1', '2'] [['3', '4']]
     (by decide) (by decide),
   padBlockHeight_idempotent_and_fields.2.2.1 ['1', '2']⟩

/-- C10: an undefined or empty fetchScheduled result ends the run with
no message persisted, no crank and the monitor untouched; on a full
success lastFromSortKey is set to the scheduledSortKey of the last
batch element and the monitor is persisted; a crank failure leaves the
monitor unpersisted and unchanged, and a save failure additionally
never invokes the cranker. -/
theorem processMonitor_run_atomicity :
    (∀ (monitor : MonitorRec) (cu : Except String (List SchedMsg)) (fromTxId : String)
        (saveMsgOk : SavedDbMsg → Bool) (crankOk : Bool),
      (fetchScheduled cu monitor = none ∨ fetchScheduled cu monitor = some []) →
      processMonitor monitor cu fromTxId saveMsgOk crankOk
        = { savedMsgs := [], crankInvoked := false, persistedMonitor := none,
            monitorAfter := monitor, ret := .emptyReturn })
    ∧ (∀ (monitor : MonitorRec) (cu : Except String (List SchedMsg)) (fromTxId : String)
        (saveMsgOk : SavedDbMsg → Bool) (scheduled : List SchedMsg) (lastMsg : SchedMsg),
      fetchScheduled cu monitor = some scheduled →
      scheduled.getLast? = some lastMsg →
      (scheduled.map (toSavedDbMsg fromTxId)).all saveMsgOk = true →
      processMonitor monitor cu fromTxId saveMsgOk true
        = { savedMsgs := scheduled.map (toSavedDbMsg fromTxId), crankInvoked := true,
            persistedMonitor := some { monitor with lastFromSortKey := some lastMsg.scheduledSortKey },
            monitorAfter := { monitor with lastFromSortKey := some lastMsg.scheduledSortKey },
            ret := .okStatus })
    ∧ (∀ (monitor : MonitorRec) (cu : Except String (List SchedMsg)) (fromTxId : String)
        (saveMsgOk : SavedDbMsg → Bool),
      (processMonitor monitor cu fromTxId saveMsgOk false).persistedMonitor = none
      ∧ (processMonitor monitor cu fromTxId saveMsgOk false).monitorAfter = monitor)
    ∧ (∀ (monitor : MonitorRec) (cu : Except String (List SchedMsg)) (fromTxId : String)
        (saveMsgOk : SavedDbMsg → Bool) (crankOk : Bool) (scheduled : List SchedMsg),
      fetchScheduled cu monitor = some scheduled →
      (scheduled.map (toSavedDbMsg fromTxId)).all saveMsgOk = false →
      (processMonitor monitor cu fromTxId saveMsgOk crankOk).crankInvoked = false
      ∧ (processMonitor monitor cu fromTxId saveMsgOk crankOk).persistedMonitor = none
      ∧ (processMonitor monitor cu fromTxId saveMsgOk crankOk).monitorAfter = monitor) := by
  refine ⟨?_, ?_, ?_, ?_⟩
  · intro monitor cu fromTxId saveMsgOk crankOk h
    rcases h with h | h <;> simp [processMonitor, h]
  · intro monitor cu fromTxId saveMsgOk scheduled lastMsg hf hlast hall
    cases scheduled with
    | nil => simp at hlast
    | cons s ss =>
      have hs := List.all_eq_true.mp hall
      have h1 : saveMsgOk (toSavedDbMsg fromTxId s) = true :=
        hs _ (List.mem_map_of_mem _ (List.mem_cons_self s ss))
      have h2 : ∀ a ∈ ss, saveMsgOk (toSavedDbMsg fromTxId a) = true :=
        fun a ha => hs _ (List.mem_map_of_mem _ (List.mem_cons_of_mem s ha))
      have hnex : ¬ ∃ a ∈ ss, saveMsgOk (toSavedDbMsg fromTxId a) = false := by
        rintro ⟨a, ha, hfa⟩
        rw [h2 a ha] at hfa
        exact Bool.noConfusion hfa
      have hfilter2 : List.filter saveMsgOk (List.map (toSavedDbMsg fromTxId) ss)
          = List.map (toSavedDbMsg fromTxId) ss :=
        List.filter_eq_self.mpr
          (fun x hxm => hs x (by simp only [List.map_cons, List.mem_cons]; exact Or.inr hxm))
      simp [processMonitor, hf, hlast, h1, hnex, hfilter2]
  · intro monitor cu fromTxId saveMsgOk
    cases hf : fetchScheduled cu monitor with
    | none => simp [processMonitor, hf]
    | some scheduled =>
      by_cases hlen : scheduled.length < 1
      · simp [processMonitor, hf, hlen]
      · by_cases hall : (scheduled.map (toSavedDbMsg fromTxId)).all saveMsgOk
        · simp [processMonitor, hf, hlen, hall]
        · simp [processMonitor, hf, hlen, hall]
  · intro monitor cu fromTxId saveMsgOk crankOk scheduled hf hall
    cases scheduled with
    | nil => simp at hall
    | cons s ss =>
      rcases List.all_eq_false.mp hall with ⟨x, hx, hxf⟩
      rcases List.mem_map.mp hx with ⟨a, ha, rfl⟩
      rcases List.mem_cons.mp ha with rfl | ha2
      · simp [processMonitor, hf, hxf]
      · have hex : ∃ b ∈ ss, saveMsgOk (toSavedDbMsg fromTxId b) = false :=
          ⟨a, ha2, by simpa using hxf⟩
        simp [processMonitor, hf, hex]

/-- C10 witness: the run effects at a concrete monitor, an empty batch,
a successful run, a crank failure and a save failure. -/
theorem processMonitor_run_atomicity_witness :
    processMonitor c10Monitor (.ok []) "tx0" (fun _ => true) true
      = { savedMsgs := [], crankInvoked := false, persistedMonitor := none,
          monitorAfter := c10Monitor, ret := .emptyReturn }
    ∧ processMonitor c10Monitor (.ok c10Sched) "tx1" (fun _ => true) true
      = { savedMsgs := c10Sched.map (toSavedDbMsg "tx1"), crankInvoked := true,
          persistedMonitor := some { c10Monitor with lastFromSortKey := some "sk2" },
          monitorAfter := { c10Monitor with lastFromSortKey := some "sk2" },
          ret := .okStatus }
    ∧ (processMonitor c10Monitor (.ok c10Sched) "tx1" (fun _ => true) false).persistedMonitor = none
    ∧ (processMonitor c10Monitor (.ok c10Sched) "tx1" (fun _ => false) true).crankInvoked = false :=
  ⟨processMonitor_run_atomicity.1 c10Monitor (.ok []) "tx0" (fun _ => true) true (Or.inr rfl),
   processMonitor_run_atomicity.2.1 c10Monitor (.ok c10Sched) "tx1" (fun _ => true) c10Sched
     { scheduledSortKey := "sk2", body := "m2" } rfl rfl rfl,
   (processMonitor_run_atomicity.2.2.1 c10Monitor (.ok c10Sched) "tx1" (fun _ => true)).1,
   (processMonitor_run_atomicity.2.2.2 c10Monitor (.ok c10Sched) "tx1" (fun _ => false) true
     c10Sched rfl rfl).1⟩
